import Mathlib

/-!
Shallow embedding of the workflow-network core of the repository
(src/repoa/components/network_handler/): the node and edge data model,
edge routing, builder validation, and the execution engine in both its
run-to-completion and streaming modes, together with proofs about the
frozen specification claims.
-/

namespace Repoa

/-- Runtime values stored in a workflow state mapping. Python state values
are dynamically typed; string and natural-number payloads are enough for
the properties checked here. -/
inductive Value where
  | vStr (s : String)
  | vNat (n : Nat)
deriving DecidableEq, Repr

/-- StateDict (network_state.py): an insertion-ordered mapping from string
keys to values, embedded as an association list kept duplicate-free by the
update operation, matching Python dict semantics (overwrite in place,
append new keys). -/
abbrev StateDict := List (String × Value)

/-- START sentinel (constants.py). -/
def START : String := "__start__"

/-- END sentinel (constants.py). -/
def END : String := "__end__"

/-- MAX_ITERATIONS (constants.py). -/
def MAX_ITERATIONS : Nat := 1000

/-- Association-list lookup, first binding wins (Python dict lookup). -/
def alistLookup {β : Type} : List (String × β) → String → Option β
  | [], _ => none
  | (k, v) :: rest, key => if k = key then some v else alistLookup rest key

/-- Overwrite the binding of a key in place, or append it at the end
(Python dict item assignment, insertion order preserved). -/
def alistInsert {β : Type} : List (String × β) → String → β → List (String × β)
  | [], key, v => [(key, v)]
  | (k, w) :: rest, key, v =>
    if k = key then (k, v) :: rest else (k, w) :: alistInsert rest key v

/-- Python dict.update: fold each binding of the update mapping into the
target, in the update mapping order. -/
def dictUpdate {β : Type} (base updates : List (String × β)) : List (String × β) :=
  updates.foldl (fun acc kv => alistInsert acc kv.1 kv.2) base

/-- What a node callable returns in Python: None, a dict of updates, or any
other non-mapping value. A raising callable is an Except.error carrying the
message of the exception. -/
inductive NodeReturn where
  | retNone
  | retDict (d : StateDict)
  | retVal (v : Value)

/-- NodeFunction (node.py): a callable from state to a returned value,
which may raise. -/
abbrev NodeFunction := StateDict → Except String NodeReturn

/-- Node (node.py). The timeout field (a float, declared but never
enforced) is omitted; the remaining metadata fields are inert. -/
structure Node where
  node_id : String
  func : Option NodeFunction := none
  description : Option String := none
  retry_count : Nat := 0
  is_agent : Bool := false

/-- Node call (node.py lines 90 to 105): an absent callable yields the
empty update dict, a None return yields the empty dict, a non-dict return
is wrapped under the result key, and an exception propagates. -/
def Node.call (n : Node) (state : StateDict) : Except String StateDict :=
  match n.func with
  | none => .ok []
  | some f =>
    match f state with
    | .error e => .error e
    | .ok .retNone => .ok []
    | .ok (.retDict d) => .ok d
    | .ok (.retVal v) => .ok [("result", v)]

/-- EdgeCondition (edge.py): a callable from state to a routing key. -/
abbrev EdgeCondition := StateDict → String

/-- Edge (edge.py). -/
structure Edge where
  source_node : String
  target_node : Option String := none
  condition : Option EdgeCondition := none
  is_conditional : Bool := false
  description : Option String := none

/-- The Edge constructor (edge.py lines 34 to 62): is_conditional is
derived from the presence of a condition. -/
def mkEdge (source_node : String) (target_node : Option String)
    (condition : Option EdgeCondition) : Edge :=
  { source_node := source_node, target_node := target_node,
    condition := condition, is_conditional := condition.isSome }

/-- Python truthiness of an optional string: None and the empty string are
falsy. -/
def truthy : Option String → Bool
  | none => false
  | some s => if s = "" then false else true

/-- Edge.route (edge.py lines 64 to 79): a condition routes; otherwise a
truthy target routes; otherwise a RuntimeError is raised. -/
def Edge.route (e : Edge) (state : StateDict) : Except String String :=
  match e.condition with
  | some c => .ok (c state)
  | none =>
    match e.target_node with
    | some t =>
      if t = "" then .error ("Edge from " ++ e.source_node ++ " has no routing target")
      else .ok t
    | none => .error ("Edge from " ++ e.source_node ++ " has no routing target")

/-- EdgeSet (edge.py). -/
structure EdgeSet where
  edges : List Edge := []

/-- EdgeSet.add_edge: append to the collection. -/
def EdgeSet.add_edge (es : EdgeSet) (e : Edge) : EdgeSet :=
  { edges := es.edges ++ [e] }

/-- EdgeSet.get_edges_from: all edges whose source matches, in insertion
order. -/
def EdgeSet.get_edges_from (es : EdgeSet) (source_node : String) : List Edge :=
  es.edges.filter (fun e => e.source_node == source_node)

/-- EdgeSet.get_next_node (edge.py lines 130 to 156): the first conditional
edge found routes; otherwise the first simple edge with a truthy target;
otherwise no next node. An exception raised while routing propagates. -/
def EdgeSet.get_next_node (es : EdgeSet) (source_node : String) (state : StateDict) :
    Except String (Option String) :=
  let edges := es.get_edges_from source_node
  if edges.isEmpty then .ok none
  else
    match edges.find? (fun e => e.is_conditional) with
    | some e => (e.route state).map some
    | none =>
      match edges.find? (fun e => !e.is_conditional && truthy e.target_node) with
      | some e => .ok e.target_node
      | none => .ok none

/-- WorkflowNetwork (workflow_network.py): ordered node table, edge set,
entry and exit ids. -/
structure WorkflowNetwork where
  graph_id : String := "workflow"
  nodes : List (String × Node) := []
  edges : EdgeSet := {}
  entry_node : String := START
  exit_node : String := END

/-- Node ids in insertion order (list of the node table keys). -/
def WorkflowNetwork.nodeKeys (w : WorkflowNetwork) : List String :=
  w.nodes.map Prod.fst

/-- Dictionary lookup in the node table. -/
def WorkflowNetwork.lookupNode (w : WorkflowNetwork) (node_id : String) : Option Node :=
  alistLookup w.nodes node_id

/-- WorkflowNetwork.add_node: registers (or overwrites) a node, returning
the updated network and the created node. -/
def WorkflowNetwork.add_node (w : WorkflowNetwork) (node_id : String)
    (func : Option NodeFunction) : WorkflowNetwork × Node :=
  let node : Node := { node_id := node_id, func := func }
  ({ w with nodes := alistInsert w.nodes node_id node }, node)

/-- WorkflowNetwork.add_edge: registers a simple edge. -/
def WorkflowNetwork.add_edge (w : WorkflowNetwork) (source target : String) :
    WorkflowNetwork × Edge :=
  let e := mkEdge source (some target) none
  ({ w with edges := w.edges.add_edge e }, e)

/-- The resolver wrapped around a conditional edge condition
(workflow_network.py lines 108 to 110): look the condition result up in the
target map, fall back to the default entry, fall back to END. -/
def routedCondition (condition : EdgeCondition) (target_map : List (String × String)) :
    EdgeCondition :=
  fun state =>
    match alistLookup target_map (condition state) with
    | some t => t
    | none =>
      match alistLookup target_map "default" with
      | some d => d
      | none => END

/-- WorkflowNetwork.add_conditional_edge: registers a single conditional
edge whose condition is the wrapped resolver. -/
def WorkflowNetwork.add_conditional_edge (w : WorkflowNetwork) (source : String)
    (condition : EdgeCondition) (target_map : List (String × String)) :
    WorkflowNetwork × Edge :=
  let e := mkEdge source none (some (routedCondition condition target_map))
  ({ w with edges := w.edges.add_edge e }, e)

/-- The per-edge reference checks of WorkflowNetwork.validate: a dangling
source, then a truthy dangling target, failing on the first bad edge in
insertion order. -/
def validateEdges (keys : List String) : List Edge → Except String Unit
  | [] => .ok ()
  | e :: rest =>
    if ¬(e.source_node = START ∨ e.source_node ∈ keys) then
      .error ("Edge source " ++ e.source_node ++ " not found")
    else
      match e.target_node with
      | some t =>
        if t ≠ "" ∧ ¬(t = END ∨ t ∈ keys) then
          .error ("Edge target " ++ t ++ " not found")
        else validateEdges keys rest
      | none => validateEdges keys rest

/-- WorkflowNetwork.validate (workflow_network.py lines 140 to 165): entry,
then exit, then each edge in order; the first violation raises with a
message naming the offending id. -/
def WorkflowNetwork.validate (w : WorkflowNetwork) : Except String Bool :=
  if ¬(w.entry_node = START ∨ w.entry_node ∈ w.nodeKeys) then
    .error ("Entry point " ++ w.entry_node ++ " not found")
  else if ¬(w.exit_node = END ∨ w.exit_node ∈ w.nodeKeys) then
    .error ("Exit point " ++ w.exit_node ++ " not found")
  else
    match validateEdges w.nodeKeys w.edges.edges with
    | .error e => .error e
    | .ok _ => .ok true

/-- CompiledWorkflow (workflow_network.py): the validated network paired
with its engine, which holds only a reference back to the network. -/
structure CompiledWorkflow where
  network : WorkflowNetwork

/-- WorkflowNetwork.compile: validate, then wrap the network. -/
def WorkflowNetwork.compile (w : WorkflowNetwork) : Except String CompiledWorkflow :=
  match w.validate with
  | .error e => .error e
  | .ok _ => .ok { network := w }

/-- ExecutionStep (execution_engine.py); the wall-clock timestamp and
duration fields are omitted as inert. -/
structure ExecutionStep where
  node_id : String
  state_before : Option StateDict := none
  state_after : Option StateDict := none
  error : Option String := none
deriving DecidableEq, Repr

/-- ExecutionResult (execution_engine.py); total_duration_ms omitted. -/
structure ExecutionResult where
  final_state : StateDict
  steps : List ExecutionStep := []
  iterations : Nat := 0
  error : Option String := none
  completed : Bool := true
deriving DecidableEq, Repr

/-- The state merge performed by both engine loops: apply the updates only
when the update dict is truthy (non-empty). -/
def applyUpdates (state updates : StateDict) : StateDict :=
  if updates.isEmpty then state else dictUpdate state updates

/-- The ExecutionStep the execute loop records for a successful node
invocation: before and after snapshots and no error. -/
def stepRecord (cur : String) (before after : StateDict) : ExecutionStep :=
  { node_id := cur, state_before := some before,
    state_after := some after, error := none }

/-- The single normal return site of ExecutionEngine.execute: completed
records whether the halting node is the exit node. -/
def loopExitResult (net : WorkflowNetwork) (cur : String) (state : StateDict)
    (steps : List ExecutionStep) (iter : Nat) : ExecutionResult :=
  { final_state := state, steps := steps, iterations := iter,
    error := none, completed := decide (cur = net.exit_node) }

/-- The except-branch return site of ExecutionEngine.execute: the message
of the caught exception, completed false. -/
def loopErrorResult (state : StateDict) (steps : List ExecutionStep) (iter : Nat)
    (msg : String) : ExecutionResult :=
  { final_state := state, steps := steps, iterations := iter,
    error := some msg, completed := false }

/-- The while loop of ExecutionEngine.execute (lines 74 to 146), with the
remaining iteration budget as fuel (fuel = max_iterations - iteration, so
fuel 0 is the exhausted budget). A raised exception lands in the error
field of the returned result, as in the surrounding try/except. The step
recording a failing node call is discarded, because the append follows the
inner try/except that re-raises. -/
def execLoop (net : WorkflowNetwork) :
    Nat → String → StateDict → List ExecutionStep → Nat → ExecutionResult
  | 0, cur, state, steps, iter => loopExitResult net cur state steps iter
  | fuel + 1, cur, state, steps, iter =>
    if cur = net.exit_node then loopExitResult net cur state steps iter
    else
      if cur = START then
        match net.edges.get_next_node START state with
        | .error e => loopErrorResult state steps (iter + 1) e
        | .ok none => loopExitResult net cur state steps (iter + 1)
        | .ok (some t) =>
          if t = "" then loopExitResult net cur state steps (iter + 1)
          else execLoop net fuel t state steps (iter + 1)
      else
        match net.lookupNode cur with
        | some node =>
          match node.call state with
          | .error e =>
            loopErrorResult state steps (iter + 1) ("Node " ++ cur ++ " failed: " ++ e)
          | .ok updates =>
            let state2 := applyUpdates state updates
            let step : ExecutionStep := stepRecord cur state state2
            match net.edges.get_next_node cur state2 with
            | .error e => loopErrorResult state2 (steps ++ [step]) (iter + 1) e
            | .ok none => loopExitResult net cur state2 (steps ++ [step]) (iter + 1)
            | .ok (some t) => execLoop net fuel t state2 (steps ++ [step]) (iter + 1)
        | none =>
          match net.edges.get_next_node cur state with
          | .error e => loopErrorResult state steps (iter + 1) e
          | .ok none => loopExitResult net cur state steps (iter + 1)
          | .ok (some t) => execLoop net fuel t state steps (iter + 1)

/-- ExecutionEngine.execute (execution_engine.py lines 56 to 146). -/
def execute (net : WorkflowNetwork) (initial_state : StateDict)
    (max_iterations : Nat) : ExecutionResult :=
  execLoop net max_iterations net.entry_node initial_state [] 0

/-- CompiledWorkflow.invoke: execute and return only the final state. -/
def invoke (net : WorkflowNetwork) (initial_state : StateDict)
    (max_iterations : Nat) : StateDict :=
  (execute net initial_state max_iterations).final_state

/-- The trailing yield of ExecutionEngine.stream (lines 201 to 202): the
exit node paired with the full final state, only when the loop stopped at
the exit node. -/
def finalYield (net : WorkflowNetwork) (cur : String) (state : StateDict) :
    List (String × StateDict) :=
  if cur = net.exit_node then [(net.exit_node, state)] else []

/-- The while loop of ExecutionEngine.stream (lines 148 to 202), fuel as in
execLoop. The first component collects the yielded items in order; the
second records an exception escaping the generator, if any. -/
def streamLoop (net : WorkflowNetwork) :
    Nat → String → StateDict → List (String × StateDict) × Option String
  | 0, cur, state => (finalYield net cur state, none)
  | fuel + 1, cur, state =>
    if cur = net.exit_node then (finalYield net cur state, none)
    else if cur = START then
      match net.edges.get_next_node START state with
      | .error e => ([], some e)
      | .ok none => (finalYield net cur state, none)
      | .ok (some t) =>
        if t = "" then (finalYield net cur state, none)
        else
          let rest := streamLoop net fuel t state
          ((START, [("next_node", Value.vStr t)]) :: rest.1, rest.2)
    else
      match net.lookupNode cur with
      | some node =>
        match node.call state with
        | .error e =>
          let item := (cur, [("error", Value.vStr e)])
          match net.edges.get_next_node cur state with
          | .error e2 => ([item], some e2)
          | .ok none => (item :: finalYield net cur state, none)
          | .ok (some t) =>
            let rest := streamLoop net fuel t state
            (item :: rest.1, rest.2)
        | .ok updates =>
          let state2 := applyUpdates state updates
          let item := (cur, updates)
          match net.edges.get_next_node cur state2 with
          | .error e2 => ([item], some e2)
          | .ok none => (item :: finalYield net cur state2, none)
          | .ok (some t) =>
            let rest := streamLoop net fuel t state2
            (item :: rest.1, rest.2)
      | none =>
        match net.edges.get_next_node cur state with
        | .error e2 => ([], some e2)
        | .ok none => (finalYield net cur state, none)
        | .ok (some t) => streamLoop net fuel t state

/-- ExecutionEngine.stream, collected eagerly: every yielded item in order,
plus any exception escaping the generator. -/
def stream (net : WorkflowNetwork) (initial_state : StateDict)
    (max_iterations : Nat) : List (String × StateDict) × Option String :=
  streamLoop net max_iterations net.entry_node initial_state

/-! Concrete fixtures used by witnesses and counterexamples. -/

/-- A callable that always raises with message boom. -/
def failFun : NodeFunction := fun _ => .error "boom"

/-- A callable that returns a one-key update dict. -/
def okFun : NodeFunction := fun _ => .ok (.retDict [("x", .vNat 1)])

/-- A node whose callable raises. -/
def nodeA : Node := { node_id := "a", func := some failFun }

/-- A node whose callable succeeds. -/
def nodeB : Node := { node_id := "b", func := some okFun }

/-- A network routing START to a single failing node. -/
def net1 : WorkflowNetwork :=
  { nodes := [("a", nodeA)], edges := { edges := [mkEdge START (some "a") none] } }

/-- A network routing START to a failing node and on to a succeeding node
and END. -/
def net2 : WorkflowNetwork :=
  { nodes := [("a", nodeA), ("b", nodeB)],
    edges := { edges := [mkEdge START (some "a") none, mkEdge "a" (some "b") none,
                         mkEdge "b" (some END) none] } }

/-- A network whose only edge routes START to an empty-string target: the
target is non-null and dangling, yet every truthiness check skips it. -/
def netC5 : WorkflowNetwork :=
  { nodes := [], edges := { edges := [mkEdge START (some "") none] } }

end Repoa

namespace Repoa

/-- C1: when a node callable raises inside the execute loop, the loop
returns (rather than propagating an exception) an ExecutionResult whose
error is the non-null wrapped message and whose completed field is false,
with the step list left exactly as it was, and the ghost trace shows the
failing node is the last one invoked in the call. -/
theorem C1_execute_node_failure (net : WorkflowNetwork) (fuel : Nat) (cur : String)
    (state : StateDict) (steps : List ExecutionStep) (iter : Nat) (node : Node) (e : String)
    (hexit : cur ≠ net.exit_node) (hstart : cur ≠ START)
    (hnode : net.lookupNode cur = some node)
    (hfail : node.call state = .error e) :
    execLoop net (fuel + 1) cur state steps iter =
      { final_state := state, steps := steps, iterations := iter + 1,
        error := some ("Node " ++ cur ++ " failed: " ++ e), completed := false } := by
  simp only [execLoop, if_neg hexit, if_neg hstart, hnode, hfail, loopErrorResult]

/-- Witness for C1: the failing node of net1, at the concrete loop entry. -/
theorem C1_execute_node_failure_witness :
    net1.lookupNode "a" = some nodeA ∧ nodeA.call [] = .error "boom" ∧
    execLoop net1 1 "a" [] [] 0 =
      { final_state := [], steps := [], iterations := 1,
        error := some ("Node " ++ "a" ++ " failed: " ++ "boom"), completed := false } :=
  ⟨rfl, rfl, C1_execute_node_failure net1 0 "a" [] [] 0 nodeA "boom"
    (by decide) (by decide) rfl rfl⟩

/-- C2: when a node callable raises inside the stream loop, the loop yields
the pair of that node id and the error dict and then continues with the
node routed next; and whenever traversal reaches the exit node, what is
yielded there is exactly the final item carrying the full current state. -/
theorem C2_stream_error_item_then_continue (net : WorkflowNetwork) (fuel : Nat)
    (cur t : String) (state : StateDict) (node : Node) (e : String)
    (hexit : cur ≠ net.exit_node) (hstart : cur ≠ START)
    (hnode : net.lookupNode cur = some node)
    (hfail : node.call state = .error e)
    (hroute : net.edges.get_next_node cur state = .ok (some t)) :
    streamLoop net (fuel + 1) cur state =
      ((cur, [("error", Value.vStr e)]) :: (streamLoop net fuel t state).1,
        (streamLoop net fuel t state).2) ∧
    ∀ fuel2 state2, streamLoop net fuel2 net.exit_node state2 =
      ([(net.exit_node, state2)], none) := by
  constructor
  · simp only [streamLoop, if_neg hexit, if_neg hstart, hnode, hfail, hroute]
  · intro fuel2 state2
    cases fuel2 <;> simp [streamLoop, finalYield]

/-- Witness for C2: the failing node of net2 streams its error item and
continues to node b. -/
theorem C2_stream_error_item_then_continue_witness :
    net2.lookupNode "a" = some nodeA ∧ nodeA.call [] = .error "boom" ∧
    net2.edges.get_next_node "a" [] = .ok (some "b") ∧
    (streamLoop net2 3 "a" [] =
      (("a", [("error", Value.vStr "boom")]) :: (streamLoop net2 2 "b" []).1,
        (streamLoop net2 2 "b" []).2) ∧
      ∀ fuel2 state2, streamLoop net2 fuel2 net2.exit_node state2 =
        ([(net2.exit_node, state2)], none)) :=
  ⟨rfl, rfl, rfl, C2_stream_error_item_then_continue net2 2 "a" "b" [] nodeA "boom"
    (by decide) (by decide) rfl rfl rfl⟩

/-- C6: the conditional edge registered by add_conditional_edge resolves a
state to target_map at the condition result when that key is present,
otherwise to the default entry when present, otherwise to END. -/
theorem C6_conditional_edge_resolution (w : WorkflowNetwork) (source : String)
    (condition : EdgeCondition) (target_map : List (String × String)) (state : StateDict) :
    ((w.add_conditional_edge source condition target_map).2.is_conditional = true) ∧
    (∀ t, alistLookup target_map (condition state) = some t →
      (w.add_conditional_edge source condition target_map).2.route state = .ok t) ∧
    (alistLookup target_map (condition state) = none →
      ∀ d, alistLookup target_map "default" = some d →
      (w.add_conditional_edge source condition target_map).2.route state = .ok d) ∧
    (alistLookup target_map (condition state) = none →
      alistLookup target_map "default" = none →
      (w.add_conditional_edge source condition target_map).2.route state = .ok END) := by
  refine ⟨rfl, ?_, ?_, ?_⟩ <;> intros <;>
    simp_all [WorkflowNetwork.add_conditional_edge, mkEdge, Edge.route, routedCondition]

/-- A two-entry target map with a default entry, for the C6 witness. -/
def tmFull : List (String × String) := [("short", "s"), ("default", "d")]

/-- A one-entry target map with no default entry, for the C6 witness. -/
def tmNoDefault : List (String × String) := [("short", "s")]

/-- Witness for C6: a concrete two-entry target map resolved at each of the
three fallback levels. -/
theorem C6_conditional_edge_resolution_witness :
    (alistLookup tmFull "short" = some "s" ∧
      (((({ } : WorkflowNetwork).add_conditional_edge "c" (fun _ => "short")
        tmFull).2).route [] = .ok "s")) ∧
    (alistLookup tmFull "other" = none ∧ alistLookup tmFull "default" = some "d" ∧
      (((({ } : WorkflowNetwork).add_conditional_edge "c" (fun _ => "other")
        tmFull).2).route [] = .ok "d")) ∧
    (alistLookup tmNoDefault "other" = none ∧ alistLookup tmNoDefault "default" = none ∧
      (((({ } : WorkflowNetwork).add_conditional_edge "c" (fun _ => "other")
        tmNoDefault).2).route [] = .ok END)) :=
  ⟨⟨rfl, (C6_conditional_edge_resolution { } "c" (fun _ => "short")
      tmFull []).2.1 "s" rfl⟩,
   ⟨rfl, rfl, (C6_conditional_edge_resolution { } "c" (fun _ => "other")
      tmFull []).2.2.1 rfl "d" rfl⟩,
   ⟨rfl, rfl, (C6_conditional_edge_resolution { } "c" (fun _ => "other")
      tmNoDefault []).2.2.2 rfl rfl⟩⟩

/-- C10: a node with no callable returns the empty update mapping; a
callable returning None yields the empty mapping; and a callable returning
a non-None, non-mapping value yields the mapping binding that value under
the result key (an ordinary successful return, not an error). -/
theorem C10_node_call_return_shapes (n : Node) (state : StateDict) :
    (n.func = none → n.call state = .ok []) ∧
    (∀ f, n.func = some f → f state = .ok .retNone → n.call state = .ok []) ∧
    (∀ f v, n.func = some f → f state = .ok (.retVal v) →
      n.call state = .ok [("result", v)]) := by
  refine ⟨?_, ?_, ?_⟩ <;> intros <;> simp_all [Node.call]

/-- Witness for C10: the three return shapes at concrete nodes. -/
theorem C10_node_call_return_shapes_witness :
    ({ node_id := "n" } : Node).call [] = .ok [] ∧
    ({ node_id := "n", func := some (fun _ => .ok .retNone) } : Node).call [] = .ok [] ∧
    ({ node_id := "n", func := some (fun _ => .ok (.retVal (.vNat 7))) } : Node).call []
      = .ok [("result", Value.vNat 7)] :=
  ⟨(C10_node_call_return_shapes { node_id := "n" } []).1 rfl,
   (C10_node_call_return_shapes { node_id := "n", func := some (fun _ => .ok .retNone) } []).2.1
     (fun _ => .ok .retNone) rfl rfl,
   (C10_node_call_return_shapes
     { node_id := "n", func := some (fun _ => .ok (.retVal (.vNat 7))) } []).2.2
     (fun _ => .ok (.retVal (.vNat 7))) (.vNat 7) rfl rfl⟩

/-- Helper: the iterations counter of the execute loop grows by at most the
remaining fuel, so a full run never exceeds its configured cap. -/
theorem execLoop_iterations_le (net : WorkflowNetwork) :
    ∀ (fuel : Nat) (cur : String) (state : StateDict)
      (steps : List ExecutionStep) (iter : Nat),
      (execLoop net fuel cur state steps iter).iterations ≤ iter + fuel := by
  intro fuel
  induction fuel with
  | zero =>
    intro cur state steps iter
    simp [execLoop, loopExitResult]
  | succ fuel ih =>
    intro cur state steps iter
    simp only [execLoop]
    repeat' split
    all_goals
      first
      | (simp only [loopExitResult, loopErrorResult]; omega)
      | (exact Nat.le_trans (ih _ _ _ _) (by omega))

/-- C7: both halting reasons short of the exit node carry completed false
and no error: a zero budget returns the input state untouched with zero
iterations; an exhausted budget halts with no error; routing exhaustion at
START and after a successful node likewise halts with no error; and the
iterations counter never exceeds its cap, so only that counter reaching the
cap tells the two reasons apart. -/
theorem C7_halting_reasons (net : WorkflowNetwork) :
    (∀ state, net.entry_node ≠ net.exit_node →
      execute net state 0 =
        { final_state := state, steps := [], iterations := 0,
          error := none, completed := false }) ∧
    (∀ cur state steps iter, cur ≠ net.exit_node →
      execLoop net 0 cur state steps iter =
        { final_state := state, steps := steps, iterations := iter,
          error := none, completed := false }) ∧
    (∀ fuel state, net.entry_node = START → net.exit_node ≠ START →
      net.edges.get_next_node START state = .ok none →
      execute net state (fuel + 1) =
        { final_state := state, steps := [], iterations := 1,
          error := none, completed := false }) ∧
    (∀ fuel cur state steps iter node updates, cur ≠ net.exit_node → cur ≠ START →
      net.lookupNode cur = some node → node.call state = .ok updates →
      net.edges.get_next_node cur (applyUpdates state updates) = .ok none →
      execLoop net (fuel + 1) cur state steps iter =
        { final_state := applyUpdates state updates,
          steps := steps ++ [stepRecord cur state (applyUpdates state updates)],
          iterations := iter + 1, error := none, completed := false }) ∧
    (∀ state maxIt, (execute net state maxIt).iterations ≤ maxIt) := by
  refine ⟨?_, ?_, ?_, ?_, ?_⟩
  · intro state h
    simp [execute, execLoop, loopExitResult, h]
  · intro cur state steps iter h
    simp [execLoop, loopExitResult, h]
  · intro fuel state hentry hexit hroute
    have h1 : ¬(START = net.exit_node) := fun hh => hexit hh.symm
    simp [execute, hentry, execLoop, h1, hroute, loopExitResult]
  · intro fuel cur state steps iter node updates hexit hstart hnode hcall hroute
    simp only [execLoop, if_neg hexit, if_neg hstart, hnode, hcall, hroute,
      loopExitResult]
    simp [hexit]
  · intro state maxIt
    simpa using execLoop_iterations_le net maxIt net.entry_node state [] 0

/-- Witness for C7: net2 with a zero budget halts at once with the input
state unchanged. -/
theorem C7_halting_reasons_witness :
    net2.entry_node ≠ net2.exit_node ∧
    execute net2 [("k", Value.vNat 5)] 0 =
      { final_state := [("k", Value.vNat 5)], steps := [], iterations := 0,
        error := none, completed := false } :=
  ⟨by decide, (C7_halting_reasons net2).1 [("k", Value.vNat 5)] (by decide)⟩

/-- The routing policy exactly as claim C3 words it: the resolved target of
the first conditional edge if any conditional edge exists at the source,
otherwise the target of the first static edge from the source, and no next
node only when no edges originate from the source at all. -/
def get_next_node_claimed (es : EdgeSet) (source_node : String) (state : StateDict) :
    Except String (Option String) :=
  let edges := es.get_edges_from source_node
  match edges.find? (fun e => e.is_conditional) with
  | some e => (e.route state).map some
  | none =>
    match edges.head? with
    | some e => .ok e.target_node
    | none => .ok none

/-- Claim C3 as stated: get_next_node behaves like the claimed policy on
every edge set, source and state. -/
def C3Statement : Prop :=
  ∀ (es : EdgeSet) (source_node : String) (state : StateDict),
    es.get_next_node source_node state = get_next_node_claimed es source_node state

/-- An edge set whose single static edge carries an empty-string target:
non-null, yet skipped by the truthiness test of the static-edge scan. -/
def esEmptyTarget : EdgeSet := { edges := [mkEdge "a" (some "") none] }

/-- Counterexample to C3: on the empty-string target the code returns no
next node, while the claimed policy returns the first static edge target. -/
theorem C3_counterexample : ¬ C3Statement := by
  intro h
  have h2 := h esEmptyTarget "a" []
  have ha : esEmptyTarget.get_next_node "a" [] = .ok none := rfl
  have hb : get_next_node_claimed esEmptyTarget "a" [] = .ok (some "") := rfl
  rw [ha, hb] at h2
  simp at h2

/-- The routing policy as amended: identical to the claim except that the
static-edge scan returns the target of the first static edge with a truthy
(non-null, non-empty) target, and yields no next node either when no edges
originate from the source or when no conditional edge exists and no static
edge carries a truthy target. -/
def get_next_node_amended (es : EdgeSet) (source_node : String) (state : StateDict) :
    Except String (Option String) :=
  let edges := es.get_edges_from source_node
  match edges.find? (fun e => e.is_conditional) with
  | some e => (e.route state).map some
  | none =>
    match edges.find? (fun e => !e.is_conditional && truthy e.target_node) with
    | some e => .ok e.target_node
    | none => .ok none

/-- Helper: find? returns the element at the first index satisfying the
predicate. -/
theorem find_first_eq {α : Type} (p : α → Bool) :
    ∀ (l : List α) (i : Nat) (hi : i < l.length),
      p (l.get ⟨i, hi⟩) = true →
      (∀ j (hj : j < i), p (l.get ⟨j, Nat.lt_trans hj hi⟩) = false) →
      l.find? p = some (l.get ⟨i, hi⟩) := by
  intro l
  induction l with
  | nil => intro i hi _ _; exact absurd hi (Nat.not_lt_zero i)
  | cons a l ih =>
    intro i hi hp hfirst
    cases i with
    | zero =>
      simp only [List.get] at hp
      simp [List.find?, hp]
    | succ i =>
      have ha : p a = false := by simpa using hfirst 0 (Nat.succ_pos i)
      have hrec := ih i (Nat.lt_of_succ_lt_succ hi) (by simpa using hp)
        (fun j hj => by simpa using hfirst (j + 1) (Nat.succ_lt_succ hj))
      simp [List.find?, ha, hrec]

/-- C3 amended: get_next_node equals the amended policy on all inputs, and
in the conditional case the result is the resolved target of the first
conditional edge in insertion order (the index-minimal one), so later
conditional edges at the same source are never consulted. -/
theorem C3_routing_amended (es : EdgeSet) (source_node : String) (state : StateDict) :
    es.get_next_node source_node state = get_next_node_amended es source_node state ∧
    (∀ i (hi : i < (es.get_edges_from source_node).length),
      ((es.get_edges_from source_node).get ⟨i, hi⟩).is_conditional = true →
      (∀ j (hj : j < i),
        ((es.get_edges_from source_node).get ⟨j, Nat.lt_trans hj hi⟩).is_conditional
          = false) →
      es.get_next_node source_node state =
        ((((es.get_edges_from source_node).get ⟨i, hi⟩).route state).map some)) := by
  constructor
  · simp only [EdgeSet.get_next_node, get_next_node_amended]
    cases h : es.get_edges_from source_node with
    | nil => simp [h]
    | cons a l => simp [h]
  · intro i hi hcond hfirst
    have hne : es.get_edges_from source_node ≠ [] := by
      intro hc
      rw [hc] at hi
      exact absurd hi (Nat.not_lt_zero i)
    have hfind := find_first_eq (fun e => e.is_conditional)
      (es.get_edges_from source_node) i hi hcond hfirst
    simp only [EdgeSet.get_next_node]
    rw [if_neg (by simpa using hne), hfind]

/-- A condition used by the C3 witness. -/
def condT : EdgeCondition := fun _ => "t"

/-- An edge set with one conditional edge followed by one static edge at
the same source, for the C3 witness. -/
def esC3w : EdgeSet :=
  { edges := [mkEdge "c" none (some condT), mkEdge "c" (some "u") none] }

/-- Witness for C3 amended: on a source with a conditional edge first, the
code agrees with the amended policy and routes by the first conditional. -/
theorem C3_routing_amended_witness :
    esC3w.get_next_node "c" [] = get_next_node_amended esC3w "c" [] ∧
    ((esC3w.get_edges_from "c").get ⟨0, by decide⟩).is_conditional = true ∧
    esC3w.get_next_node "c" [] =
      ((((esC3w.get_edges_from "c").get ⟨0, by decide⟩).route []).map some) := by
  refine ⟨(C3_routing_amended esC3w "c" []).1, rfl, ?_⟩
  exact (C3_routing_amended esC3w "c" []).2 0 (by decide) rfl
    (fun j hj => absurd hj (Nat.not_lt_zero j))

/-- Claim C4 as stated: when a node callable raises at a loop entry of
execute, the returned step list contains a step recording that node id and
that failure message. -/
def C4Statement : Prop :=
  ∀ (net : WorkflowNetwork) (fuel : Nat) (cur : String) (state : StateDict)
    (steps : List ExecutionStep) (iter : Nat) (node : Node) (e : String),
    cur ≠ net.exit_node → cur ≠ START →
    net.lookupNode cur = some node → node.call state = .error e →
    ∃ s, s ∈ (execLoop net (fuel + 1) cur state steps iter).steps ∧
      s.node_id = cur ∧ s.error = some e

/-- Counterexample to C4: the failing node of net1 leaves the step list
empty, because the append in the source follows the inner try/except that
re-raises. -/
theorem C4_counterexample : ¬ C4Statement := by
  intro h
  obtain ⟨s, hs, _, _⟩ := h net1 0 "a" [] [] 0 nodeA "boom" (by decide) (by decide) rfl rfl
  have hsteps : (execLoop net1 1 "a" [] [] 0).steps = [] := rfl
  rw [hsteps] at hs
  exact absurd hs (List.not_mem_nil s)

/-- Helper: appending the success step record preserves the error-free step
invariant. -/
theorem steps_snoc_ok {steps : List ExecutionStep} {cur : String} {b a : StateDict}
    (h : ∀ s, s ∈ steps → s.error = none) :
    ∀ s, s ∈ steps ++ [stepRecord cur b a] → s.error = none := by
  intro s hs
  rcases List.mem_append.mp hs with h1 | h1
  · exact h s h1
  · simp at h1
    subst h1
    rfl

/-- C4 amended: the failure is wrapped into the error of the result, but
the failing step is not appended; every step in the returned step list
records a successful invocation, with its error field none. -/
theorem C4_steps_error_free (net : WorkflowNetwork) :
    ∀ (fuel : Nat) (cur : String) (state : StateDict)
      (steps : List ExecutionStep) (iter : Nat),
      (∀ s, s ∈ steps → s.error = none) →
      ∀ s, s ∈ (execLoop net fuel cur state steps iter).steps → s.error = none := by
  intro fuel
  induction fuel with
  | zero =>
    intro cur state steps iter h s hs
    exact h s (by simpa [execLoop, loopExitResult] using hs)
  | succ fuel ih =>
    intro cur state steps iter h s hs
    simp only [execLoop] at hs
    repeat' split at hs
    all_goals
      first
      | exact h s (by simpa [loopExitResult, loopErrorResult] using hs)
      | exact steps_snoc_ok h s (by simpa [loopExitResult, loopErrorResult] using hs)
      | exact ih _ _ _ _ h s hs
      | exact ih _ _ _ _ (steps_snoc_ok h) s hs

/-- Witness for C4 amended: a full run of net2 (whose first node fails)
returns only error-free steps. -/
theorem C4_steps_error_free_witness :
    (∀ s, s ∈ ([] : List ExecutionStep) → s.error = none) ∧
    (∀ s, s ∈ (execLoop net2 5 net2.entry_node [] [] 0).steps → s.error = none) :=
  ⟨fun s hs => absurd hs (List.not_mem_nil s),
   C4_steps_error_free net2 5 net2.entry_node [] [] 0
     (fun s hs => absurd hs (List.not_mem_nil s))⟩

/-- Claim C5 as stated, at the invariant the code misses: a network holding
an edge whose non-null target references neither a node nor END always
fails validation. -/
def C5Statement : Prop :=
  ∀ (w : WorkflowNetwork) (e : Edge) (t : String),
    e ∈ w.edges.edges → e.target_node = some t →
    ¬(t = END ∨ t ∈ w.nodeKeys) →
    ∃ msg, w.validate = .error msg

/-- Counterexample to C5: the empty-string target of netC5 is non-null and
dangling, yet validate succeeds because the source only checks truthy
targets. -/
theorem C5_counterexample : ¬ C5Statement := by
  intro h
  obtain ⟨msg, hmsg⟩ := h netC5 (mkEdge START (some "") none) ""
    (by simp [netC5]) rfl (by decide)
  have hv : netC5.validate = .ok true := rfl
  rw [hv] at hmsg
  simp at hmsg

/-- The entry reference invariant validate checks. -/
def entryOk (w : WorkflowNetwork) : Prop :=
  w.entry_node = START ∨ w.entry_node ∈ w.nodeKeys

/-- The exit reference invariant validate checks. -/
def exitOk (w : WorkflowNetwork) : Prop :=
  w.exit_node = END ∨ w.exit_node ∈ w.nodeKeys

/-- The per-edge reference invariant validate checks: source resolves, and
any truthy (non-null, non-empty) target resolves. -/
def edgeOk (keys : List String) (e : Edge) : Prop :=
  (e.source_node = START ∨ e.source_node ∈ keys) ∧
  (∀ t, e.target_node = some t → t ≠ "" → (t = END ∨ t ∈ keys))

/-- Helper: validateEdges succeeds exactly when every edge satisfies the
per-edge invariant. -/
theorem validateEdges_ok_iff (keys : List String) :
    ∀ es : List Edge, validateEdges keys es = .ok () ↔ ∀ e ∈ es, edgeOk keys e := by
  intro es
  induction es with
  | nil => simp [validateEdges]
  | cons e rest ih =>
    rw [List.forall_mem_cons, ← ih]
    by_cases hsrc : e.source_node = START ∨ e.source_node ∈ keys
    · cases ht : e.target_node with
      | none =>
        simp only [validateEdges, ht, if_neg (not_not_intro hsrc)]
        constructor
        · intro h
          exact ⟨⟨hsrc, by simp [ht]⟩, h⟩
        · intro h
          exact h.2
      | some t =>
        by_cases htgt : t ≠ "" ∧ ¬(t = END ∨ t ∈ keys)
        · simp only [validateEdges, ht, if_neg (not_not_intro hsrc), if_pos htgt]
          constructor
          · intro h
            exact absurd h (by simp)
          · intro h
            exact absurd (h.1.2 t ht htgt.1) htgt.2
        · simp only [validateEdges, ht, if_neg (not_not_intro hsrc), if_neg htgt]
          constructor
          · intro h
            refine ⟨⟨hsrc, ?_⟩, h⟩
            intro u hu hne
            rw [ht] at hu
            injection hu with hu
            subst hu
            rcases not_and_or.mp htgt with h1 | h1
            · exact absurd hne (by simpa using h1)
            · exact not_not.mp h1
          · intro h
            exact h.2
    · simp only [validateEdges, if_pos hsrc]
      constructor
      · intro h
        exact absurd h (by simp)
      · intro h
        exact absurd h.1.1 hsrc

/-- C5 amended: validate succeeds exactly when entry, exit and every edge
reference resolves with targets read up to truthiness (non-null AND
non-empty); each failure reports the first violation in check order with a
message carrying the offending id verbatim; and a validated network
compiles to its CompiledWorkflow. -/
theorem C5_validate_amended (w : WorkflowNetwork) :
    (w.validate = .ok true ↔
      entryOk w ∧ exitOk w ∧ ∀ e ∈ w.edges.edges, edgeOk w.nodeKeys e) ∧
    (¬ entryOk w →
      w.validate = .error ("Entry point " ++ w.entry_node ++ " not found")) ∧
    (entryOk w → ¬ exitOk w →
      w.validate = .error ("Exit point " ++ w.exit_node ++ " not found")) ∧
    (∀ keys e rest, ¬(e.source_node = START ∨ e.source_node ∈ keys) →
      validateEdges keys (e :: rest)
        = .error ("Edge source " ++ e.source_node ++ " not found")) ∧
    (∀ keys e rest t, e.target_node = some t →
      (e.source_node = START ∨ e.source_node ∈ keys) →
      t ≠ "" → ¬(t = END ∨ t ∈ keys) →
      validateEdges keys (e :: rest)
        = .error ("Edge target " ++ t ++ " not found")) ∧
    (w.validate = .ok true → w.compile = .ok { network := w }) := by
  refine ⟨?_, ?_, ?_, ?_, ?_, ?_⟩
  · unfold WorkflowNetwork.validate
    by_cases h1 : w.entry_node = START ∨ w.entry_node ∈ w.nodeKeys
    · rw [if_neg (not_not_intro h1)]
      by_cases h2 : w.exit_node = END ∨ w.exit_node ∈ w.nodeKeys
      · rw [if_neg (not_not_intro h2)]
        cases hv : validateEdges w.nodeKeys w.edges.edges with
        | ok u =>
          cases u
          simp [entryOk, exitOk, h1, h2, ← validateEdges_ok_iff, hv]
        | error msg =>
          constructor
          · intro hh
            exact absurd hh (by simp)
          · intro hh
            have hok := (validateEdges_ok_iff w.nodeKeys w.edges.edges).mpr hh.2.2
            rw [hok] at hv
            exact absurd hv (by simp)
      · rw [if_pos h2]
        constructor
        · intro hh
          exact absurd hh (by simp)
        · intro hh
          exact absurd hh.2.1 h2
    · rw [if_pos h1]
      constructor
      · intro hh
        exact absurd hh (by simp)
      · intro hh
        exact absurd hh.1 h1
  · intro h
    have h0 : ¬(w.entry_node = START ∨ w.entry_node ∈ w.nodeKeys) := h
    unfold WorkflowNetwork.validate
    rw [if_pos h0]
  · intro h1 h2
    have h1a : w.entry_node = START ∨ w.entry_node ∈ w.nodeKeys := h1
    have h2a : ¬(w.exit_node = END ∨ w.exit_node ∈ w.nodeKeys) := h2
    unfold WorkflowNetwork.validate
    rw [if_neg (not_not_intro h1a), if_pos h2a]
  · intro keys e rest h
    simp only [validateEdges, if_pos h]
  · intro keys e rest t ht hsrc hne hbad
    simp only [validateEdges, ht, if_neg (not_not_intro hsrc),
      if_pos (And.intro hne hbad : t ≠ "" ∧ ¬(t = END ∨ t ∈ keys))]
  · intro h
    unfold WorkflowNetwork.compile
    rw [h]

/-- A network whose entry id references nothing, for the C5 witness. -/
def netBadEntry : WorkflowNetwork := { entry_node := "ghost" }

/-- Witness for C5 amended: a dangling entry id fails validation with the
message naming it. -/
theorem C5_validate_amended_witness :
    ¬ entryOk netBadEntry ∧
    netBadEntry.validate = .error ("Entry point " ++ "ghost" ++ " not found") := by
  have hne : ¬ entryOk netBadEntry := by
    intro h
    rcases h with h | h
    · exact absurd h (by decide)
    · simp [WorkflowNetwork.nodeKeys, netBadEntry] at h
  exact ⟨hne, (C5_validate_amended netBadEntry).2.1 hne⟩

/-- Claim C9 as stated: whenever entry is START, some edge leaves START and
the budget is at least one, the stream begins with the START item naming
the routed node. -/
def C9Statement : Prop :=
  ∀ (net : WorkflowNetwork) (state : StateDict) (maxIt : Nat),
    net.entry_node = START → net.edges.get_edges_from START ≠ [] → 1 ≤ maxIt →
    ∃ n, (stream net state maxIt).1.head? =
        some (START, [("next_node", Value.vStr n)]) ∧
      net.edges.get_next_node START state = .ok (some n)

/-- Counterexample to C9: netC5 has an edge from START, yet its
empty-string target makes routing resolve to nothing, so the stream yields
no item at all. -/
theorem C9_counterexample : ¬ C9Statement := by
  intro h
  have hlen : (netC5.edges.get_edges_from START).length = 1 := rfl
  obtain ⟨n, hn, _⟩ := h netC5 [] 1 rfl
    (fun hc => by rw [hc] at hlen; exact absurd hlen (by decide)) (le_refl 1)
  have hs : (stream netC5 [] 1).1 = [] := rfl
  rw [hs] at hn
  simp at hn

/-- C9 amended: when entry is START, the exit node is a different id,
routing from START resolves to a truthy node id n, and the budget is at
least one, the first streamed item is the START item naming n. -/
theorem C9_stream_start_item (net : WorkflowNetwork) (state : StateDict)
    (maxIt : Nat) (n : String)
    (hentry : net.entry_node = START) (hexit : net.exit_node ≠ START)
    (hroute : net.edges.get_next_node START state = .ok (some n))
    (hne : n ≠ "") (hpos : 1 ≤ maxIt) :
    (stream net state maxIt).1.head? =
      some (START, [("next_node", Value.vStr n)]) := by
  obtain ⟨k, rfl⟩ : ∃ k, maxIt = k + 1 := ⟨maxIt - 1, by omega⟩
  have h1 : ¬(START = net.exit_node) := fun hh => hexit hh.symm
  simp [stream, streamLoop, hentry, h1, hroute, hne]

/-- Witness for C9 amended: net2 streams the START item naming node a
first. -/
theorem C9_stream_start_item_witness :
    net2.entry_node = START ∧ net2.exit_node ≠ START ∧
    net2.edges.get_next_node START [] = .ok (some "a") ∧
    (stream net2 [] 3).1.head? = some (START, [("next_node", Value.vStr "a")]) :=
  ⟨rfl, by decide, rfl,
   C9_stream_start_item net2 [] 3 "a" rfl (by decide) rfl (by decide) (by omega)⟩

end Repoa

namespace Repoa

/-- Relates two optional values by a relation, requiring the same shape. -/
def optRel {α : Type} (r : α → α → Prop) : Option α → Option α → Prop
  | none, none => True
  | some a, some b => r a b
  | _, _ => False

/-- Extensional agreement of optional node callables. -/
def funAgrees : Option NodeFunction → Option NodeFunction → Prop
  | none, none => True
  | some f, some g => ∀ state, f state = g state
  | _, _ => False

/-- Extensional agreement of optional edge conditions. -/
def condAgrees : Option EdgeCondition → Option EdgeCondition → Prop
  | none, none => True
  | some f, some g => ∀ state, f state = g state
  | _, _ => False

/-- Nodes equal up to extensional equality of their callables: the
embedding of two invocations whose pure callables behave identically. -/
def NodeEq (n1 n2 : Node) : Prop :=
  n1.node_id = n2.node_id ∧ funAgrees n1.func n2.func

/-- Edges equal up to extensional equality of their conditions. -/
def EdgeEq (e1 e2 : Edge) : Prop :=
  e1.source_node = e2.source_node ∧ e1.target_node = e2.target_node ∧
  e1.is_conditional = e2.is_conditional ∧ condAgrees e1.condition e2.condition

/-- Networks with the same structure and extensionally equal callables and
conditions. -/
def NetworkEq (w1 w2 : WorkflowNetwork) : Prop :=
  List.Forall₂ (fun p q => p.1 = q.1 ∧ NodeEq p.2 q.2) w1.nodes w2.nodes ∧
  List.Forall₂ EdgeEq w1.edges.edges w2.edges.edges ∧
  w1.entry_node = w2.entry_node ∧ w1.exit_node = w2.exit_node

theorem alistLookup_rel {β : Type} {r : β → β → Prop}
    {l1 l2 : List (String × β)}
    (h : List.Forall₂ (fun p q => p.1 = q.1 ∧ r p.2 q.2) l1 l2) :
    ∀ key, optRel r (alistLookup l1 key) (alistLookup l2 key) := by
  induction h with
  | nil => intro key; exact trivial
  | @cons p q t1 t2 hpq htail ih =>
    intro key
    obtain ⟨p1, p2⟩ := p
    obtain ⟨q1, q2⟩ := q
    obtain ⟨hk, hv⟩ := hpq
    simp only at hk
    subst hk
    simp only [alistLookup]
    by_cases hkey : p1 = key
    · rw [if_pos hkey, if_pos hkey]
      exact hv
    · rw [if_neg hkey, if_neg hkey]
      exact ih key

theorem node_call_congr {n1 n2 : Node} (h : NodeEq n1 n2) (state : StateDict) :
    n1.call state = n2.call state := by
  obtain ⟨_, hf⟩ := h
  cases h1 : n1.func with
  | none =>
    cases h2 : n2.func with
    | none => simp [Node.call, h1, h2]
    | some g => rw [h1, h2] at hf; exact hf.elim
  | some f =>
    cases h2 : n2.func with
    | none => rw [h1, h2] at hf; exact hf.elim
    | some g =>
      rw [h1, h2] at hf
      simp [Node.call, h1, h2, hf state]

theorem edge_route_congr {e1 e2 : Edge} (h : EdgeEq e1 e2) (state : StateDict) :
    e1.route state = e2.route state := by
  obtain ⟨hs, ht, _, hc⟩ := h
  cases h1 : e1.condition with
  | none =>
    cases h2 : e2.condition with
    | none => simp [Edge.route, h1, h2, hs, ht]
    | some g => rw [h1, h2] at hc; exact hc.elim
  | some f =>
    cases h2 : e2.condition with
    | none => rw [h1, h2] at hc; exact hc.elim
    | some g =>
      rw [h1, h2] at hc
      simp [Edge.route, h1, h2, hc state]

theorem filter_edgeEq {l1 l2 : List Edge}
    (h : List.Forall₂ EdgeEq l1 l2) (s : String) :
    List.Forall₂ EdgeEq (l1.filter (fun e => e.source_node == s))
      (l2.filter (fun e => e.source_node == s)) := by
  induction h with
  | nil => exact List.Forall₂.nil
  | @cons a b t1 t2 hab htail ih =>
    simp only [List.filter_cons]
    rw [hab.1]
    by_cases hcase : (b.source_node == s) = true
    · rw [if_pos hcase, if_pos hcase]
      exact List.Forall₂.cons hab ih
    · rw [if_neg hcase, if_neg hcase]
      exact ih

theorem find?_rel {α : Type} {r : α → α → Prop} {p : α → Bool}
    (hp : ∀ a b, r a b → p a = p b) :
    ∀ {l1 l2 : List α}, List.Forall₂ r l1 l2 →
      optRel r (l1.find? p) (l2.find? p) := by
  intro l1 l2 h
  induction h with
  | nil => exact trivial
  | @cons a b t1 t2 hab htail ih =>
    simp only [List.find?]
    rw [hp a b hab]
    cases hpb : p b with
    | true => simp only [hpb]; exact hab
    | false => simp only [hpb]; exact ih

theorem get_next_node_congr {es1 es2 : EdgeSet}
    (h : List.Forall₂ EdgeEq es1.edges es2.edges) (s : String) (state : StateDict) :
    es1.get_next_node s state = es2.get_next_node s state := by
  have hf : List.Forall₂ EdgeEq (es1.get_edges_from s) (es2.get_edges_from s) :=
    filter_edgeEq h s
  have hlen : (es1.get_edges_from s).length = (es2.get_edges_from s).length :=
    List.Forall₂.length_eq hf
  have hcond := find?_rel (r := EdgeEq) (p := fun e => e.is_conditional)
    (fun a b hab => hab.2.2.1) hf
  have hstat := find?_rel (r := EdgeEq)
    (p := fun e => !e.is_conditional && truthy e.target_node)
    (fun a b hab => by
      show (!a.is_conditional && truthy a.target_node)
        = (!b.is_conditional && truthy b.target_node)
      rw [hab.2.2.1, hab.2.1]) hf
  unfold EdgeSet.get_next_node
  by_cases he : (es1.get_edges_from s).isEmpty
  · have he2 : (es2.get_edges_from s).isEmpty := by
      rw [List.isEmpty_iff_length_eq_zero] at he ⊢
      omega
    rw [if_pos he, if_pos he2]
  · have he2 : ¬(es2.get_edges_from s).isEmpty := by
      rw [List.isEmpty_iff_length_eq_zero] at he ⊢
      omega
    rw [if_neg he, if_neg he2]
    cases h1 : (es1.get_edges_from s).find? (fun e => e.is_conditional) with
    | some e1 =>
      cases h2 : (es2.get_edges_from s).find? (fun e => e.is_conditional) with
      | some e2 =>
        rw [h1, h2] at hcond
        dsimp only
        rw [edge_route_congr hcond state]
      | none => rw [h1, h2] at hcond; exact hcond.elim
    | none =>
      cases h2 : (es2.get_edges_from s).find? (fun e => e.is_conditional) with
      | some e2 => rw [h1, h2] at hcond; exact hcond.elim
      | none =>
        cases h3 : (es1.get_edges_from s).find?
            (fun e => !e.is_conditional && truthy e.target_node) with
        | some e1 =>
          cases h4 : (es2.get_edges_from s).find?
              (fun e => !e.is_conditional && truthy e.target_node) with
          | some e2 =>
            rw [h3, h4] at hstat
            dsimp only
            rw [hstat.2.1]
          | none => rw [h3, h4] at hstat; exact hstat.elim
        | none =>
          cases h4 : (es2.get_edges_from s).find?
              (fun e => !e.is_conditional && truthy e.target_node) with
          | some e2 => rw [h3, h4] at hstat; exact hstat.elim
          | none => rfl

end Repoa


namespace Repoa

/-- Ghost instrumentation of the execute loop: the ordered list of node ids
whose callables the loop invokes (the routing sequence of a run). -/
def execTraceLoop (net : WorkflowNetwork) : Nat → String → StateDict → List String
  | 0, _, _ => []
  | fuel + 1, cur, state =>
    if cur = net.exit_node then []
    else if cur = START then
      match net.edges.get_next_node START state with
      | .error _ => []
      | .ok none => []
      | .ok (some t) => if t = "" then [] else execTraceLoop net fuel t state
    else
      match net.lookupNode cur with
      | some node =>
        match node.call state with
        | .error _ => [cur]
        | .ok updates =>
          match net.edges.get_next_node cur (applyUpdates state updates) with
          | .error _ => [cur]
          | .ok none => [cur]
          | .ok (some t) => cur :: execTraceLoop net fuel t (applyUpdates state updates)
      | none =>
        match net.edges.get_next_node cur state with
        | .error _ => []
        | .ok none => []
        | .ok (some t) => execTraceLoop net fuel t state

/-- The routing sequence of a full run of execute. -/
def execTrace (net : WorkflowNetwork) (initial_state : StateDict)
    (max_iterations : Nat) : List String :=
  execTraceLoop net max_iterations net.entry_node initial_state

theorem execLoop_congr {w1 w2 : WorkflowNetwork} (h : NetworkEq w1 w2) :
    ∀ (fuel : Nat) (cur : String) (state : StateDict)
      (steps : List ExecutionStep) (iter : Nat),
      execLoop w1 fuel cur state steps iter = execLoop w2 fuel cur state steps iter := by
  obtain ⟨hnodes, hedges, hentry, hexit⟩ := h
  intro fuel
  induction fuel with
  | zero =>
    intro cur state steps iter
    simp [execLoop, loopExitResult, hexit]
  | succ fuel ih =>
    intro cur state steps iter
    simp only [execLoop]
    by_cases hc1 : cur = w1.exit_node
    · have hc2 : cur = w2.exit_node := hexit ▸ hc1
      rw [if_pos hc1, if_pos hc2]
      simp [loopExitResult, hexit]
    · have hc2 : ¬(cur = w2.exit_node) := fun hh => hc1 (by rw [hexit]; exact hh)
      rw [if_neg hc1, if_neg hc2]
      by_cases hs : cur = START
      · rw [if_pos hs, if_pos hs]
        rw [← get_next_node_congr hedges START state]
        cases hn : w1.edges.get_next_node START state with
        | error e => rfl
        | ok o =>
          cases o with
          | none => simp [loopExitResult, hexit]
          | some t =>
            dsimp only
            by_cases ht : t = ""
            · rw [if_pos ht, if_pos ht]
              simp [loopExitResult, hexit]
            · rw [if_neg ht, if_neg ht]
              exact ih t state steps (iter + 1)
      · rw [if_neg hs, if_neg hs]
        have hlk := alistLookup_rel hnodes cur
        cases h1 : w1.lookupNode cur with
        | some n1 =>
          cases h2 : w2.lookupNode cur with
          | some n2 =>
            rw [show alistLookup w1.nodes cur = w1.lookupNode cur from rfl, h1,
              show alistLookup w2.nodes cur = w2.lookupNode cur from rfl, h2] at hlk
            dsimp only
            rw [← node_call_congr hlk state]
            cases hcall : n1.call state with
            | error e => rfl
            | ok updates =>
              dsimp only
              rw [← get_next_node_congr hedges cur (applyUpdates state updates)]
              cases hr : w1.edges.get_next_node cur (applyUpdates state updates) with
              | error e => rfl
              | ok o =>
                cases o with
                | none => simp [loopExitResult, hexit]
                | some t =>
                  dsimp only
                  exact ih t (applyUpdates state updates)
                    (steps ++ [stepRecord cur state (applyUpdates state updates)]) (iter + 1)
          | none =>
            rw [show alistLookup w1.nodes cur = w1.lookupNode cur from rfl, h1,
              show alistLookup w2.nodes cur = w2.lookupNode cur from rfl, h2] at hlk
            exact hlk.elim
        | none =>
          cases h2 : w2.lookupNode cur with
          | some n2 =>
            rw [show alistLookup w1.nodes cur = w1.lookupNode cur from rfl, h1,
              show alistLookup w2.nodes cur = w2.lookupNode cur from rfl, h2] at hlk
            exact hlk.elim
          | none =>
            dsimp only
            rw [← get_next_node_congr hedges cur state]
            cases hr : w1.edges.get_next_node cur state with
            | error e => rfl
            | ok o =>
              cases o with
              | none => simp [loopExitResult, hexit]
              | some t =>
                dsimp only
                exact ih t state steps (iter + 1)

end Repoa

namespace Repoa

theorem execTraceLoop_congr {w1 w2 : WorkflowNetwork} (h : NetworkEq w1 w2) :
    ∀ (fuel : Nat) (cur : String) (state : StateDict),
      execTraceLoop w1 fuel cur state = execTraceLoop w2 fuel cur state := by
  obtain ⟨hnodes, hedges, hentry, hexit⟩ := h
  intro fuel
  induction fuel with
  | zero =>
    intro cur state
    simp [execTraceLoop]
  | succ fuel ih =>
    intro cur state
    simp only [execTraceLoop]
    by_cases hc1 : cur = w1.exit_node
    · have hc2 : cur = w2.exit_node := hexit ▸ hc1
      rw [if_pos hc1, if_pos hc2]
    · have hc2 : ¬(cur = w2.exit_node) := fun hh => hc1 (by rw [hexit]; exact hh)
      rw [if_neg hc1, if_neg hc2]
      by_cases hs : cur = START
      · rw [if_pos hs, if_pos hs]
        rw [← get_next_node_congr hedges START state]
        cases hn : w1.edges.get_next_node START state with
        | error e => rfl
        | ok o =>
          cases o with
          | none => rfl
          | some t =>
            dsimp only
            by_cases ht : t = ""
            · rw [if_pos ht, if_pos ht]
            · rw [if_neg ht, if_neg ht]
              exact ih t state
      · rw [if_neg hs, if_neg hs]
        have hlk := alistLookup_rel hnodes cur
        cases h1 : w1.lookupNode cur with
        | some n1 =>
          cases h2 : w2.lookupNode cur with
          | some n2 =>
            rw [show alistLookup w1.nodes cur = w1.lookupNode cur from rfl, h1,
              show alistLookup w2.nodes cur = w2.lookupNode cur from rfl, h2] at hlk
            dsimp only
            rw [← node_call_congr hlk state]
            cases hcall : n1.call state with
            | error e => rfl
            | ok updates =>
              dsimp only
              rw [← get_next_node_congr hedges cur (applyUpdates state updates)]
              cases hr : w1.edges.get_next_node cur (applyUpdates state updates) with
              | error e => rfl
              | ok o =>
                cases o with
                | none => rfl
                | some t =>
                  dsimp only
                  rw [ih t (applyUpdates state updates)]
          | none =>
            rw [show alistLookup w1.nodes cur = w1.lookupNode cur from rfl, h1,
              show alistLookup w2.nodes cur = w2.lookupNode cur from rfl, h2] at hlk
            exact hlk.elim
        | none =>
          cases h2 : w2.lookupNode cur with
          | some n2 =>
            rw [show alistLookup w1.nodes cur = w1.lookupNode cur from rfl, h1,
              show alistLookup w2.nodes cur = w2.lookupNode cur from rfl, h2] at hlk
            exact hlk.elim
          | none =>
            dsimp only
            rw [← get_next_node_congr hedges cur state]
            cases hr : w1.edges.get_next_node cur state with
            | error e => rfl
            | ok o =>
              cases o with
              | none => rfl
              | some t =>
                dsimp only
                exact ih t state

/-- C8: two runs on identical initial states through networks whose
callables and conditions agree extensionally (the embedding of two invoke
calls over the same pure functions) produce the same final state, the same
full ExecutionResult, and the same routing sequence of invoked nodes. -/
theorem C8_invoke_deterministic (w1 w2 : WorkflowNetwork) (h : NetworkEq w1 w2)
    (state : StateDict) (maxIt : Nat) :
    invoke w1 state maxIt = invoke w2 state maxIt ∧
    execute w1 state maxIt = execute w2 state maxIt ∧
    execTrace w1 state maxIt = execTrace w2 state maxIt := by
  have hentry : w1.entry_node = w2.entry_node := h.2.2.1
  have hex : execute w1 state maxIt = execute w2 state maxIt := by
    unfold execute
    rw [← hentry]
    exact execLoop_congr h maxIt w1.entry_node state [] 0
  refine ⟨?_, hex, ?_⟩
  · unfold invoke
    rw [hex]
  · unfold execTrace
    rw [← hentry]
    exact execTraceLoop_congr h maxIt w1.entry_node state

/-- A callable raising the same message as failFun, written differently. -/
def failFun2 : NodeFunction := fun _ => .error ("bo" ++ "om")

/-- A node extensionally equal to nodeA with a syntactically distinct
callable. -/
def nodeA2 : Node := { node_id := "a", func := some failFun2 }

/-- net2 with the syntactically distinct but extensionally equal failing
callable. -/
def net2b : WorkflowNetwork :=
  { nodes := [("a", nodeA2), ("b", nodeB)], edges := net2.edges }

/-- Edges are EdgeEq-related to themselves. -/
theorem edgeEq_refl (e : Edge) : EdgeEq e e := by
  refine ⟨rfl, rfl, rfl, ?_⟩
  cases e.condition with
  | none => exact trivial
  | some c => intro state; rfl

/-- Witness for C8: net2 and its extensional twin run to the same result
and trace. -/
theorem C8_invoke_deterministic_witness :
    NetworkEq net2 net2b ∧
    invoke net2 [] 10 = invoke net2b [] 10 ∧
    execTrace net2 [] 10 = execTrace net2b [] 10 := by
  have heq : NetworkEq net2 net2b := by
    refine ⟨?_, ?_, rfl, rfl⟩
    · refine List.Forall₂.cons ⟨rfl, rfl, ?_⟩ (List.Forall₂.cons ⟨rfl, rfl, ?_⟩ List.Forall₂.nil)
      · intro state; rfl
      · intro state; rfl
    · exact List.forall₂_same.mpr (fun e _ => edgeEq_refl e)
  exact ⟨heq, (C8_invoke_deterministic net2 net2b heq [] 10).1,
    (C8_invoke_deterministic net2 net2b heq [] 10).2.2⟩

end Repoa
